import Mathlib

/-!
Verification of the reward-ledger core of the Telegram Ad Network bot
(`src/telegram_bot.py`): account creation (`create_user`), the referral
reward (`handle_referral`) and the withdrawal eligibility gate embedded in
`withdraw_command`.

The remote Firebase store is modelled as a pair of partial maps (user
records and the referral ledger).  A stored user record is a Python dict
whose fields may individually be absent, so every field is `Option`-valued
and every read goes through `Option.getD`, mirroring the source's
`dict.get(field, default)` calls.  Monetary amounts are modelled as exact
rationals.  Server timestamps (`db.ServerValue.TIMESTAMP`) are modelled as
an explicit `ts : Nat` parameter.  Each mutating operation also returns the
list of store writes it issued, in order, so that ordering properties of
the side effects can be stated.
-/

namespace AdBot

/-- A persisted user record: a dict whose fields may be absent. -/
structure StoredUser where
  userId : Option String := none
  telegramId : Option Nat := none
  telegramName : Option String := none
  username : Option String := none
  balance : Option ℚ := none
  adsWatched : Option Nat := none
  dailyAdsWatched : Option Nat := none
  network1AdsWatched : Option Nat := none
  network2AdsWatched : Option Nat := none
  referrals : Option Nat := none
  referralEarnings : Option ℚ := none
  totalEarnings : Option ℚ := none
  totalWithdrawals : Option ℚ := none
  withdrawalPending : Option Bool := none
  lastReferralCount : Option Nat := none
  joinDate : Option Nat := none
  lastUpdated : Option Nat := none
  deriving DecidableEq, Repr

/-- A referral-ledger entry written at `referrals/{referrer_id}/{new_user_id}`. -/
structure LedgerEntry where
  referredAt : Nat
  userId : String
  telegramId : Nat
  deriving DecidableEq, Repr

/-- The remote store: user records under `users/` and the referral ledger
under `referrals/`. -/
structure Store where
  users : String → Option StoredUser
  ledger : String → String → Option LedgerEntry

/-- The store with no records at all. -/
def emptyStore : Store := ⟨fun _ => none, fun _ _ => none⟩

/-- One write issued against the remote store. -/
inductive StoreOp where
  | setUser (uid : String) (u : StoredUser)
  | setLedger (referrerId newUserId : String) (e : LedgerEntry)
  | updateReferrer (referrerId : String) (referrals : Nat)
      (referralEarnings balance totalEarnings : ℚ)
  deriving DecidableEq, Repr

/-- Effect of one write on the store.  `updateReferrer` is Firebase's
`update`: a partial merge that overwrites exactly the four listed fields of
the record at `users/{referrer_id}`. -/
def applyOp (s : Store) (op : StoreOp) : Store :=
  match op with
  | .setUser uid u =>
      { s with users := fun k => if k = uid then some u else s.users k }
  | .setLedger rid nuid e =>
      { s with ledger := fun r n =>
          if r = rid ∧ n = nuid then some e else s.ledger r n }
  | .updateReferrer rid refs refE bal totE =>
      { s with users := fun k =>
          if k = rid then
            some { (s.users rid).getD {} with
                     referrals := some refs
                     referralEarnings := some refE
                     balance := some bal
                     totalEarnings := some totE }
          else s.users k }

/-- Referral reward per referred user (source literal `0.01`). -/
def rewardAmount : ℚ := 1 / 100

/-- Referral threshold for a first withdrawal (source literal `15`). -/
def firstWithdrawalMinReferrals : Nat := 15

/-- Minimum withdrawable balance (source literal `60`). -/
def minWithdrawalBalance : ℚ := 60

/-- `handle_referral(referrer_id, new_user_id, new_telegram_id)`:
writes the ledger entry at `referrals/{referrer_id}/{new_user_id}`, then
reads the referrer's record; if present, merges the four incremented fields
back.  Returns the new store, the writes issued in order, and the updated
referrer record (`none` when the referrer record was absent). -/
def handle_referral (s : Store) (referrer_id new_user_id : String)
    (new_telegram_id ts : Nat) : Store × List StoreOp × Option StoredUser :=
  let entry : LedgerEntry := ⟨ts, new_user_id, new_telegram_id⟩
  let ledgerOp : StoreOp := .setLedger referrer_id new_user_id entry
  let s1 := applyOp s ledgerOp
  match s1.users referrer_id with
  | some referrer_data =>
      let op : StoreOp := .updateReferrer referrer_id
        (referrer_data.referrals.getD 0 + 1)
        (referrer_data.referralEarnings.getD 0 + rewardAmount)
        (referrer_data.balance.getD 0 + rewardAmount)
        (referrer_data.totalEarnings.getD 0 + rewardAmount)
      let s2 := applyOp s1 op
      (s2, [ledgerOp, op], s2.users referrer_id)
  | none => (s1, [ledgerOp], none)

/-- The fresh record `create_user` builds for `users/tg_{telegram_id}`. -/
def freshUser (telegram_id : Nat) (username first_name last_name : String)
    (ts : Nat) : StoredUser where
  userId := some ("tg_" ++ toString telegram_id)
  telegramId := some telegram_id
  telegramName := some ((first_name ++ " " ++ last_name).trim)
  username := some username
  balance := some 0
  adsWatched := some 0
  dailyAdsWatched := some 0
  network1AdsWatched := some 0
  network2AdsWatched := some 0
  referrals := some 0
  referralEarnings := some 0
  totalEarnings := some 0
  totalWithdrawals := some 0
  withdrawalPending := some false
  lastReferralCount := some 0
  joinDate := some ts
  lastUpdated := some ts

/-- `create_user(telegram_id, username, first_name, last_name, referrer_id)`:
persists the fresh record at `users/tg_{telegram_id}`, then — when a
referrer id was supplied (a non-empty string, Python truthiness) and it is
not the new user's own id — runs `handle_referral`.  Returns the new store,
the writes issued in order, and the created record. -/
def create_user (s : Store) (telegram_id : Nat)
    (username first_name last_name : String) (referrer_id : Option String)
    (ts : Nat) : Store × List StoreOp × StoredUser :=
  let user_id := "tg_" ++ toString telegram_id
  let user_data := freshUser telegram_id username first_name last_name ts
  let setOp : StoreOp := .setUser user_id user_data
  let s1 := applyOp s setOp
  match referrer_id with
  | some rid =>
      if rid ≠ "" ∧ rid ≠ user_id then
        let r := handle_referral s1 rid user_id telegram_id ts
        (r.1, setOp :: r.2.1, user_data)
      else (s1, [setOp], user_data)
  | none => (s1, [setOp], user_data)

/-- Withdrawal eligibility outcome, as rendered by `withdraw_command`. -/
inductive EligibilityResult where
  | Pending
  | NeedsReferrals (n : Nat)
  | NeedsBalance (amount : ℚ)
  | Eligible
  deriving DecidableEq, Repr

/-- The eligibility gate of `withdraw_command`, which reads
`balance`, `referrals`, `totalWithdrawals` and `withdrawalPending` with
`dict.get` defaults and tests them in source order. -/
def checkEligibility (u : StoredUser) : EligibilityResult :=
  let balance := u.balance.getD 0
  let referrals := u.referrals.getD 0
  let total_withdrawals := u.totalWithdrawals.getD 0
  let withdrawal_pending := u.withdrawalPending.getD false
  if withdrawal_pending then .Pending
  else if total_withdrawals = 0 ∧ referrals < firstWithdrawalMinReferrals then
    .NeedsReferrals (firstWithdrawalMinReferrals - referrals)
  else if balance < minWithdrawalBalance then
    .NeedsBalance (minWithdrawalBalance - balance)
  else .Eligible

/-- The spec scenario account `totalWithdrawals=0, referrals=15, balance=60`
(all other fields as created, i.e. zero / not pending). -/
def boundaryAccount : StoredUser :=
  { freshUser 1 "u" "f" "l" 0 with
      balance := some 60
      referrals := some 15
      totalWithdrawals := some 0 }

/-- `N` sequential invocations of the referral reward for the same
referrer (each for some new user; the new-user arguments do not affect the
referrer's record). -/
def iterateReferral (rid nuid : String) (ntid ts : Nat) : Nat → Store → Store
  | 0, s => s
  | n + 1, s => iterateReferral rid nuid ntid ts n (handle_referral s rid nuid ntid ts).1

/-- The account invariant of the spec: `balance <= totalEarnings`. -/
def balInv (u : StoredUser) : Prop :=
  u.balance.getD 0 ≤ u.totalEarnings.getD 0

/-- Every persisted user record satisfies `balInv`. -/
def storeInv (s : Store) : Prop :=
  ∀ uid u, s.users uid = some u → balInv u

/-- An account with a pending withdrawal and every other gate also failing. -/
def pendAcct : StoredUser :=
  { freshUser 1 "u" "f" "l" 0 with withdrawalPending := some true }

/-- The spec scenario `totalWithdrawals=0, referrals=15, balance=10`. -/
def lowBalAcct : StoredUser :=
  { freshUser 1 "u" "f" "l" 0 with referrals := some 15, balance := some 10 }

/-- An account passing every gate: prior withdrawals and a high balance. -/
def eligAcct : StoredUser :=
  { freshUser 1 "u" "f" "l" 0 with totalWithdrawals := some 5, balance := some 70 }

/-- A store holding a single referrer record with all counters zero. -/
def oneRefStore : Store :=
  applyOp emptyStore (.setUser "r" (freshUser 1 "u" "f" "l" 0))

/-- A store holding a referrer record that has a `userId` but lacks all
four reward fields. -/
def bareRefStore : Store :=
  applyOp emptyStore (.setUser "r" { userId := some "r" })

/-! ## Supporting lemmas -/

/-- Writing a ledger entry leaves the user records untouched. -/
theorem applyOp_setLedger_users (s : Store) (rid nuid : String) (e : LedgerEntry) :
    (applyOp s (.setLedger rid nuid e)).users = s.users := rfl

/-- The referral reward never touches the record of a user other than the
referrer. -/
theorem handle_referral_users_other (s : Store) (rid nuid : String)
    (ntid ts : Nat) (k : String) (hk : k ≠ rid) :
    (handle_referral s rid nuid ntid ts).1.users k = s.users k := by
  unfold handle_referral
  cases h : s.users rid with
  | none => simp [applyOp, h]
  | some u => simp [applyOp, h, hk]

/-- When the referrer's record is present, the referral reward replaces it
by the same record with the four reward fields bumped from their
`getD 0` values. -/
theorem handle_referral_step (s : Store) (rid nuid : String) (ntid ts : Nat)
    (u : StoredUser) (h : s.users rid = some u) :
    (handle_referral s rid nuid ntid ts).1.users rid =
      some { u with
               referrals := some (u.referrals.getD 0 + 1)
               referralEarnings := some (u.referralEarnings.getD 0 + rewardAmount)
               balance := some (u.balance.getD 0 + rewardAmount)
               totalEarnings := some (u.totalEarnings.getD 0 + rewardAmount) } := by
  unfold handle_referral
  simp [applyOp, h]

/-- When the referrer's record is absent, the referral reward leaves every
user record untouched and reports no updated record. -/
theorem handle_referral_absent (s : Store) (rid nuid : String) (ntid ts : Nat)
    (h : s.users rid = none) :
    (handle_referral s rid nuid ntid ts).1.users = s.users ∧
    (handle_referral s rid nuid ntid ts).2.2 = none := by
  unfold handle_referral
  simp [applyOp, h]

/-- The referral reward preserves the `balance <= totalEarnings` invariant
of every record in the store. -/
theorem handle_referral_storeInv (s : Store) (rid nuid : String)
    (ntid ts : Nat) (hs : storeInv s) :
    storeInv (handle_referral s rid nuid ntid ts).1 := by
  intro uid u hu
  by_cases hk : uid = rid
  · subst hk
    cases h : s.users uid with
    | none =>
        rw [(handle_referral_absent s uid nuid ntid ts h).1, h] at hu
        exact absurd hu (by simp)
    | some u0 =>
        rw [handle_referral_step s uid nuid ntid ts u0 h] at hu
        have hinv := hs uid u0 h
        cases hu
        simpa [balInv] using add_le_add_right hinv rewardAmount
  · rw [handle_referral_users_other s rid nuid ntid ts uid hk] at hu
    exact hs uid u hu

/-! ## Claim theorems -/

/-- C2: with `totalWithdrawals = 0`, `referrals = 15` and balance exactly
`60`, the eligibility check returns `Eligible`: the balance comparison is a
strict `<`, so a balance equal to the minimum passes. -/
theorem boundary_balance_eligible :
    checkEligibility boundaryAccount = .Eligible := by
  decide

/-- C1: the eligibility gate evaluates its rules in fixed order — a pending
withdrawal yields `Pending` regardless of all other fields; otherwise a
first withdrawal (`totalWithdrawals = 0`) with fewer than 15 referrals
yields `NeedsReferrals (15 - referrals)`; otherwise a balance under 60
yields `NeedsBalance (60 - balance)`; otherwise `Eligible`.  Earlier rules
shadow later ones. -/
theorem checkEligibility_rule_order (u : StoredUser) :
    (u.withdrawalPending.getD false = true → checkEligibility u = .Pending) ∧
    (u.withdrawalPending.getD false = false →
      u.totalWithdrawals.getD 0 = 0 →
      u.referrals.getD 0 < firstWithdrawalMinReferrals →
      checkEligibility u =
        .NeedsReferrals (firstWithdrawalMinReferrals - u.referrals.getD 0)) ∧
    (u.withdrawalPending.getD false = false →
      ¬(u.totalWithdrawals.getD 0 = 0 ∧
          u.referrals.getD 0 < firstWithdrawalMinReferrals) →
      u.balance.getD 0 < minWithdrawalBalance →
      checkEligibility u =
        .NeedsBalance (minWithdrawalBalance - u.balance.getD 0)) ∧
    (u.withdrawalPending.getD false = false →
      ¬(u.totalWithdrawals.getD 0 = 0 ∧
          u.referrals.getD 0 < firstWithdrawalMinReferrals) →
      ¬(u.balance.getD 0 < minWithdrawalBalance) →
      checkEligibility u = .Eligible) := by
  refine ⟨fun h1 => ?_, fun h1 h2 h3 => ?_, fun h1 h2 h3 => ?_, fun h1 h2 h3 => ?_⟩
  · simp [checkEligibility, h1]
  · simp only [checkEligibility]
    rw [if_neg (by simp [h1]), if_pos ⟨h2, h3⟩]
  · simp only [checkEligibility]
    rw [if_neg (by simp [h1]), if_neg h2, if_pos h3]
  · simp only [checkEligibility]
    rw [if_neg (by simp [h1]), if_neg h2, if_neg h3]

/-- Witness for C1: one concrete account per rule, each landing on its rule
with every earlier rule's shadowing visible (the pending account also has
zero referrals and zero balance; the eligible account has prior
withdrawals, so it is never gated on referrals). -/
theorem checkEligibility_rule_order_witness :
    checkEligibility pendAcct = .Pending ∧
    checkEligibility (freshUser 2 "u" "f" "l" 0) = .NeedsReferrals 15 ∧
    checkEligibility lowBalAcct = .NeedsBalance 50 ∧
    checkEligibility eligAcct = .Eligible := by
  refine ⟨(checkEligibility_rule_order pendAcct).1 (by decide), ?_, ?_, ?_⟩
  · have h := (checkEligibility_rule_order (freshUser 2 "u" "f" "l" 0)).2.1
      (by decide) (by decide) (by decide)
    rw [h]
    decide
  · have h := (checkEligibility_rule_order lowBalAcct).2.2.1
      (by decide) (by decide) (by decide)
    rw [h]
    norm_num [minWithdrawalBalance, lowBalAcct, freshUser]
  · exact (checkEligibility_rule_order eligAcct).2.2.2
      (by decide) (by decide) (by decide)

/-- C3: `balance <= totalEarnings` holds after every operation of this
subsystem — `create_user` establishes it (the fresh record has both 0) and
preserves it, and `handle_referral` preserves it by adding the same reward
to both `balance` and `totalEarnings`. -/
theorem balance_le_totalEarnings_invariant :
    (∀ s tid un fn ln rid ts, storeInv s →
      storeInv (create_user s tid un fn ln rid ts).1) ∧
    (∀ s rid nuid ntid ts, storeInv s →
      storeInv (handle_referral s rid nuid ntid ts).1) := by
  have hset : ∀ (s : Store) (uid : String) (u : StoredUser), storeInv s →
      balInv u → storeInv (applyOp s (.setUser uid u)) := by
    intro s uid u hs hu k v hv
    simp only [applyOp] at hv
    by_cases hk : k = uid
    · subst hk
      rw [if_pos rfl] at hv
      injection hv with hv
      exact hv ▸ hu
    · rw [if_neg hk] at hv
      exact hs k v hv
  refine ⟨?_, fun s rid nuid ntid ts hs => handle_referral_storeInv s rid nuid ntid ts hs⟩
  intro s tid un fn ln rid ts hs
  have hs1 : storeInv (applyOp s
      (.setUser ("tg_" ++ toString tid) (freshUser tid un fn ln ts))) :=
    hset _ _ _ hs (by simp [balInv, freshUser])
  cases rid with
  | none => exact hs1
  | some r =>
      by_cases hg : r ≠ "" ∧ r ≠ "tg_" ++ toString tid
      · simp only [create_user]
        rw [if_pos hg]
        exact handle_referral_storeInv _ _ _ _ _ hs1
      · simp only [create_user]
        rw [if_neg hg]
        exact hs1

/-- Witness for C3: the record stored by a concrete `create_user` on the
empty store satisfies `balInv`. -/
theorem balance_le_totalEarnings_invariant_witness :
    balInv (freshUser 3 "u" "f" "l" 9) := by
  have hinv : storeInv emptyStore := fun uid u h => by simp [emptyStore] at h
  have h := balance_le_totalEarnings_invariant.1 emptyStore 3 "u" "f" "l" none 9 hinv
  refine h ("tg_" ++ toString 3) _ ?_
  simp only [create_user]
  simp [applyOp]

/-- C4: `N` sequential referral rewards for a referrer whose record is
present add `N` to `referrals` and `N * rewardAmount` (reward 0.01) to each
of `balance`, `referralEarnings` and `totalEarnings`. -/
theorem apply_referral_reward_iterated (s : Store) (rid nuid : String)
    (ntid ts N : Nat) (u : StoredUser) (h : s.users rid = some u) :
    ∃ u2, (iterateReferral rid nuid ntid ts N s).users rid = some u2 ∧
      u2.referrals.getD 0 = u.referrals.getD 0 + N ∧
      u2.balance.getD 0 = u.balance.getD 0 + N * rewardAmount ∧
      u2.referralEarnings.getD 0 = u.referralEarnings.getD 0 + N * rewardAmount ∧
      u2.totalEarnings.getD 0 = u.totalEarnings.getD 0 + N * rewardAmount := by
  induction N generalizing s u with
  | zero =>
      exact ⟨u, by simpa [iterateReferral] using h, by simp, by simp, by simp, by simp⟩
  | succ n ih =>
      obtain ⟨u2, hu2, h1, h2, h3, h4⟩ :=
        ih (handle_referral s rid nuid ntid ts).1 _ (handle_referral_step s rid nuid ntid ts u h)
      refine ⟨u2, by simpa [iterateReferral] using hu2, ?_, ?_, ?_, ?_⟩
      · simp only [Option.getD_some] at h1
        omega
      · simp only [Option.getD_some] at h2
        rw [h2]
        push_cast
        ring
      · simp only [Option.getD_some] at h3
        rw [h3]
        push_cast
        ring
      · simp only [Option.getD_some] at h4
        rw [h4]
        push_cast
        ring

/-- Witness for C4: three sequential rewards on a store holding one zeroed
referrer record yield 3 referrals and `3 * rewardAmount` in each monetary
field. -/
theorem apply_referral_reward_iterated_witness :
    ∃ u2, (iterateReferral "r" "n" 5 7 3 oneRefStore).users "r" = some u2 ∧
      u2.referrals.getD 0 = 0 + 3 ∧
      u2.balance.getD 0 = 0 + ((3 : Nat) : ℚ) * rewardAmount ∧
      u2.referralEarnings.getD 0 = 0 + ((3 : Nat) : ℚ) * rewardAmount ∧
      u2.totalEarnings.getD 0 = 0 + ((3 : Nat) : ℚ) * rewardAmount :=
  apply_referral_reward_iterated oneRefStore "r" "n" 5 7 3 (freshUser 1 "u" "f" "l" 0) rfl

/-- C5: a self-referral (`referrer_id` equal to the new user's own id) is
rejected silently — the referral ledger is untouched, every other user's
record is untouched, and the only store write is the new account itself. -/
theorem create_user_self_referral (s : Store) (tid : Nat) (un fn ln : String)
    (ts : Nat) :
    (create_user s tid un fn ln (some ("tg_" ++ toString tid)) ts).1.ledger =
      s.ledger ∧
    (∀ k, k ≠ "tg_" ++ toString tid →
      (create_user s tid un fn ln (some ("tg_" ++ toString tid)) ts).1.users k =
        s.users k) ∧
    (create_user s tid un fn ln (some ("tg_" ++ toString tid)) ts).2.1 =
      [.setUser ("tg_" ++ toString tid) (freshUser tid un fn ln ts)] := by
  simp only [create_user]
  rw [if_neg (by simp)]
  refine ⟨rfl, fun k hk => ?_, rfl⟩
  simp [applyOp, hk]

/-- Witness for C5: a concrete self-referring `create_user` leaves another
user's (absent) record absent. -/
theorem create_user_self_referral_witness :
    (create_user emptyStore 7 "u" "f" "l" (some ("tg_" ++ toString 7)) 0).1.users "x" =
      none :=
  ((create_user_self_referral emptyStore 7 "u" "f" "l" 0).2.1 "x" (by decide)).trans rfl

/-- C6: when the referrer's record is absent, the referral reward reports
no updated record (`NotFound`) and mutates no user record at all — and the
operation simply returns, with no retry. -/
theorem handle_referral_not_found (s : Store) (rid nuid : String)
    (ntid ts : Nat) (h : s.users rid = none) :
    (handle_referral s rid nuid ntid ts).2.2 = none ∧
    ∀ k, (handle_referral s rid nuid ntid ts).1.users k = s.users k := by
  obtain ⟨h1, h2⟩ := handle_referral_absent s rid nuid ntid ts h
  exact ⟨h2, fun k => by rw [h1]⟩

/-- Witness for C6: on the empty store the reward result is `none` and the
referrer's record stays absent. -/
theorem handle_referral_not_found_witness :
    (handle_referral emptyStore "r" "n" 1 2).2.2 = none ∧
    (handle_referral emptyStore "r" "n" 1 2).1.users "r" = none := by
  have h := handle_referral_not_found emptyStore "r" "n" 1 2 rfl
  exact ⟨h.1, (h.2 "r").trans rfl⟩

/-- C7: for every identity, `create_user` stores a record with all counters
(`adsWatched`, `dailyAdsWatched`, `network1AdsWatched`, `network2AdsWatched`,
`referrals`) zeroed, `balance = referralEarnings = totalEarnings =
totalWithdrawals = 0`, `withdrawalPending = false`, and both timestamps set
to creation time. -/
theorem create_user_zeroed_record (s : Store) (tid : Nat) (un fn ln : String)
    (rid : Option String) (ts : Nat) :
    ∃ u, (create_user s tid un fn ln rid ts).1.users ("tg_" ++ toString tid) =
        some u ∧
      u.balance = some 0 ∧ u.adsWatched = some 0 ∧ u.dailyAdsWatched = some 0 ∧
      u.network1AdsWatched = some 0 ∧ u.network2AdsWatched = some 0 ∧
      u.referrals = some 0 ∧ u.referralEarnings = some 0 ∧
      u.totalEarnings = some 0 ∧ u.totalWithdrawals = some 0 ∧
      u.withdrawalPending = some false ∧ u.joinDate = some ts ∧
      u.lastUpdated = some ts := by
  refine ⟨freshUser tid un fn ln ts, ?_, rfl, rfl, rfl, rfl, rfl, rfl, rfl,
    rfl, rfl, rfl, rfl, rfl⟩
  cases rid with
  | none =>
      simp only [create_user]
      simp [applyOp]
  | some r =>
      by_cases hg : r ≠ "" ∧ r ≠ "tg_" ++ toString tid
      · simp only [create_user]
        rw [if_pos hg]
        have hk : ("tg_" ++ toString tid) ≠ r := Ne.symm hg.2
        rw [handle_referral_users_other _ _ _ _ _ _ hk]
        simp [applyOp]
      · simp only [create_user]
        rw [if_neg hg]
        simp [applyOp]

/-- C8: with a referrer configured, `create_user` issues the new account's
write first (it heads the op list), returns the fresh record, and when the
referral step then finds no referrer record, the new account still exists
unchanged — the partial failure does not fail account creation. -/
theorem create_user_persist_before_referral (s : Store) (tid : Nat)
    (un fn ln rid : String) (ts : Nat) (hne : rid ≠ "")
    (hnself : rid ≠ "tg_" ++ toString tid) (habsent : s.users rid = none) :
    (create_user s tid un fn ln (some rid) ts).2.1.head? =
      some (.setUser ("tg_" ++ toString tid) (freshUser tid un fn ln ts)) ∧
    (create_user s tid un fn ln (some rid) ts).1.users ("tg_" ++ toString tid) =
      some (freshUser tid un fn ln ts) ∧
    (create_user s tid un fn ln (some rid) ts).2.2 = freshUser tid un fn ln ts := by
  simp only [create_user]
  rw [if_pos ⟨hne, hnself⟩]
  refine ⟨rfl, ?_, rfl⟩
  have hab2 : (applyOp s
      (.setUser ("tg_" ++ toString tid) (freshUser tid un fn ln ts))).users rid = none := by
    simp [applyOp, hnself, habsent]
  rw [(handle_referral_absent _ _ _ _ _ hab2).1]
  simp [applyOp]

/-- Witness for C8: a concrete creation with an absent referrer still
leaves the fresh account in the store. -/
theorem create_user_persist_before_referral_witness :
    (create_user emptyStore 4 "u" "f" "l" (some "r") 9).1.users
      ("tg_" ++ toString 4) = some (freshUser 4 "u" "f" "l" 9) :=
  (create_user_persist_before_referral emptyStore 4 "u" "f" "l" "r" 9
    (by decide) (by decide) rfl).2.1

/-- C9: the ledger write heads the referral operation's writes — it happens
before the referrer-existence check — so when the referrer's record is
absent the ledger entry still exists afterwards, while no reward is applied
and no user record changes; no error is surfaced. -/
theorem referral_ledger_before_existence_check (s : Store) (rid nuid : String)
    (ntid ts : Nat) :
    (handle_referral s rid nuid ntid ts).2.1.head? =
      some (.setLedger rid nuid ⟨ts, nuid, ntid⟩) ∧
    (s.users rid = none →
      (handle_referral s rid nuid ntid ts).1.ledger rid nuid =
        some ⟨ts, nuid, ntid⟩ ∧
      (handle_referral s rid nuid ntid ts).2.2 = none ∧
      ∀ k, (handle_referral s rid nuid ntid ts).1.users k = s.users k) := by
  constructor
  · unfold handle_referral
    cases h : s.users rid <;> simp [applyOp, h]
  · intro h
    obtain ⟨h1, h2⟩ := handle_referral_absent s rid nuid ntid ts h
    refine ⟨?_, h2, fun k => by rw [h1]⟩
    unfold handle_referral
    simp [applyOp, h]

/-- Witness for C9: on the empty store the ledger entry for the pair exists
after the call while the reward result is `none`. -/
theorem referral_ledger_before_existence_check_witness :
    (handle_referral emptyStore "r" "n" 1 2).1.ledger "r" "n" = some ⟨2, "n", 1⟩ ∧
    (handle_referral emptyStore "r" "n" 1 2).2.2 = none := by
  have h := (referral_ledger_before_existence_check emptyStore "r" "n" 1 2).2 rfl
  exact ⟨h.1, h.2.1⟩

/-- C10: when the referrer's record exists but lacks `referrals`,
`referralEarnings`, `balance` or `totalEarnings`, the missing field is read
as 0 and the updated record gets `0 + increment` (1 for `referrals`,
`rewardAmount` for the monetary fields) instead of failing. -/
theorem referral_missing_fields_default_zero (s : Store) (rid nuid : String)
    (ntid ts : Nat) (u : StoredUser) (h : s.users rid = some u) :
    ∃ u2, (handle_referral s rid nuid ntid ts).1.users rid = some u2 ∧
      (u.referrals = none → u2.referrals = some 1) ∧
      (u.referralEarnings = none → u2.referralEarnings = some rewardAmount) ∧
      (u.balance = none → u2.balance = some rewardAmount) ∧
      (u.totalEarnings = none → u2.totalEarnings = some rewardAmount) := by
  refine ⟨_, handle_referral_step s rid nuid ntid ts u h, ?_, ?_, ?_, ?_⟩ <;>
    intro hnone <;> simp [hnone]

/-- Witness for C10: rewarding a referrer whose stored record lacks all
four reward fields yields `referrals = 1` and `rewardAmount` in each
monetary field. -/
theorem referral_missing_fields_default_zero_witness :
    ∃ u2, (handle_referral bareRefStore "r" "n" 1 2).1.users "r" = some u2 ∧
      u2.referrals = some 1 ∧ u2.referralEarnings = some rewardAmount ∧
      u2.balance = some rewardAmount ∧ u2.totalEarnings = some rewardAmount := by
  obtain ⟨u2, h0, h1, h2, h3, h4⟩ :=
    referral_missing_fields_default_zero bareRefStore "r" "n" 1 2
      { userId := some "r" } rfl
  exact ⟨u2, h0, h1 rfl, h2 rfl, h3 rfl, h4 rfl⟩

end AdBot
